import Mathlib

/-!
Shallow embedding of the core of the vscode-timeline-extractor extension:
the timeline index (models.ts), the extractor (extractor.ts) and the
timestamp parser (utils.ts), together with proofs about the behaviour
the specification ascribes to them.

Conventions of the embedding:
* paths are POSIX strings; the Node path module functions used by the
  source (resolve, relative, join, sep) are implemented for absolute
  POSIX paths below;
* JavaScript numbers holding timestamps are embedded as Int (timestamps
  in the store are millisecond epochs, far below 2^53, where JS number
  arithmetic on integers is exact);
* the file system is a read-only oracle (existence checks and directory
  listings are inputs); writes performed by the source (copyFile,
  metadata export) do not feed back into any value the source returns,
  so they are not part of the state;
* the JS Map used for the index is an insertion-ordered association
  list, with Map.set replacing in place.
-/

/-! ### String and path helpers (model of Node path, POSIX) -/

/-- Model of String.prototype.startsWith on the underlying characters. -/
def leadsWith : List Char → List Char → Bool
  | [], _ => true
  | _ :: _, [] => false
  | a :: ps, b :: ss => a == b && leadsWith ps ss

/-- s.startsWith p -/
def strStarts (s p : String) : Bool := leadsWith p.data s.data

/-- s.endsWith p -/
def strEnds (s p : String) : Bool := leadsWith p.data.reverse s.data.reverse

/-- Split a character list on the slash separator. -/
def splitSegsAux : List Char → List Char → List String
  | [], cur => [String.mk cur.reverse]
  | c :: rest, cur =>
    if c == '/' then String.mk cur.reverse :: splitSegsAux rest []
    else splitSegsAux rest (c :: cur)

/-- Split a path string into raw segments on the slash separator. -/
def splitSegs (s : String) : List String := splitSegsAux s.data []

/-- Join path segments with the slash separator. -/
def joinSegs : List String → String
  | [] => ""
  | [x] => x
  | x :: xs => x ++ "/" ++ joinSegs xs

/-- Normalize path segments: drop empty and dot segments, let a
dot-dot segment pop the previous one (at the root it is dropped),
as Node path normalization does for absolute paths. -/
def normSegs : List String → List String → List String
  | [], acc => acc.reverse
  | s :: rest, acc =>
    if s = "" ∨ s = "." then normSegs rest acc
    else if s = ".." then normSegs rest (acc.drop 1)
    else normSegs rest (s :: acc)

/-- Segments of path.resolve(p) for a process whose working directory is cwd. -/
def resolveSegs (cwd p : String) : List String :=
  let full := if strStarts p "/" then p else cwd ++ "/" ++ p
  normSegs (splitSegs full) []

/-- Model of Node path.resolve for POSIX paths. -/
def pathResolve (cwd p : String) : String :=
  "/" ++ joinSegs (resolveSegs cwd p)

/-- Drop the common leading segments of two segment lists. -/
def dropCommon : List String → List String → List String × List String
  | a :: as, b :: bs => if a = b then dropCommon as bs else (a :: as, b :: bs)
  | as, bs => (as, bs)

/-- Model of Node path.relative(fromP, toP) for POSIX paths: resolve
both arguments, drop the common leading segments, then climb out of
the remaining source segments and descend into the target ones. -/
def pathRelative (cwd fromP toP : String) : String :=
  let pair := dropCommon (resolveSegs cwd fromP) (resolveSegs cwd toP)
  joinSegs (List.replicate pair.1.length ".." ++ pair.2)

/-- Model of Node path.join for two segments: the source only joins a
directory with a relative name containing no dot segments, so the join
is plain concatenation with a separator. -/
def pathJoin (a b : String) : String :=
  if strEnds a "/" then a ++ b else a ++ "/" ++ b

/-- Numeric value of a digit string, accumulator form. -/
def digitsValAux : Nat → List Char → Nat
  | acc, [] => acc
  | acc, c :: rest => digitsValAux (acc * 10 + (c.toNat - 48)) rest

/-- Numeric value of an all-digit string (JS parseInt on such input,
exact below 2^53). -/
def digitsVal (s : String) : Nat := digitsValAux 0 s.data

/-- The test performed by the regular expression matching one or more
digits spanning the whole string, combined with the parseInt NaN check:
the string is nonempty and every character is a digit. -/
def isAllDigits (s : String) : Bool := !s.data.isEmpty && s.data.all Char.isDigit

/-! ### Data model (models.ts) -/

/-- One recorded version of a file (interface FileEntry). -/
structure FileEntry where
  id : String
  timestamp : Int
  source : Option String
  sourceDescription : Option String
deriving DecidableEq, Repr

/-- A tracked file with its version history (class TimelineFile).
The source stores originalPath (a file URI) and derives relativePath
by URL-decoding it (decodeFileUri); percent-decoding of URIs is not
re-implemented here, the decoded form is carried as a field. -/
structure TimelineFile where
  originalPath : String
  relativePath : String
  timelineDir : String
  entries : List FileEntry
deriving DecidableEq, Repr

/-- The accumulator step of the reduce call used by latestEntry and
getEntryAtTimestamp: keep the incumbent unless the next entry has a
strictly greater timestamp. -/
def pickLatest (latest entry : FileEntry) : FileEntry :=
  if entry.timestamp > latest.timestamp then entry else latest

/-- TimelineFile.latestEntry: reduce over the entries, empty list gives
undefined. -/
def TimelineFile.latestEntry (f : TimelineFile) : Option FileEntry :=
  match f.entries with
  | [] => none
  | e :: rest => some (rest.foldl pickLatest e)

/-- TimelineFile.oldestEntry, the dual reduce. -/
def TimelineFile.oldestEntry (f : TimelineFile) : Option FileEntry :=
  match f.entries with
  | [] => none
  | e :: rest =>
    some (rest.foldl (fun oldest entry =>
      if entry.timestamp < oldest.timestamp then entry else oldest) e)

/-- TimelineFile.getEntryAtTimestamp: filter the entries to those not
newer than the target, then the same reduce as latestEntry. -/
def TimelineFile.getEntryAtTimestamp (f : TimelineFile) (t : Int) : Option FileEntry :=
  match f.entries.filter (fun e => decide (e.timestamp ≤ t)) with
  | [] => none
  | e :: rest => some (rest.foldl pickLatest e)

/-- TimelineFile.getFileContentPath: path.join(timelineDir, entry.id). -/
def TimelineFile.getFileContentPath (f : TimelineFile) (e : FileEntry) : String :=
  pathJoin f.timelineDir e.id

/-- Per-file provenance record (interface FileMetadata). The datetime
field of the source holds the ISO rendering of the timestamp; the
rendering is presentation-only and is carried as the raw value. -/
structure FileMetadata where
  originalPath : String
  relativePath : String
  entryId : String
  timestamp : Int
  datetimeMs : Int
  source : Option String
  sourceDescription : Option String
  hash : Option String
deriving DecidableEq, Repr

/-- TimelineFile.toMetadataDict. The content hash is computed from the
blob on disk; it enters through the hashOf oracle. -/
def TimelineFile.toMetadataDict (hashOf : String → Option String)
    (f : TimelineFile) (e : FileEntry) : FileMetadata :=
  { originalPath := f.relativePath
    relativePath := f.relativePath
    entryId := e.id
    timestamp := e.timestamp
    datetimeMs := e.timestamp
    source := e.source
    sourceDescription := e.sourceDescription
    hash := hashOf (f.getFileContentPath e) }

/-! ### File system oracle -/

/-- Read-only view of the file system: fs.existsSync. -/
structure Fsys where
  fileExists : String → Bool

/-! ### Reconstruction (extractor.ts) -/

/-- Outcome record of processFileForReconstruction. -/
inductive ProcessStatus where
  | processed
  | skipped
  | error
deriving DecidableEq, Repr

/-- The object literal returned by processFileForReconstruction. -/
structure ProcessOutcome where
  status : ProcessStatus
  relativePath : Option String
  metadata : Option FileMetadata
  error : Option (String × String)
deriving DecidableEq, Repr

/-- VSCodeTimelineExtractor.calculateRelativePath. path.relative never
throws on string arguments, so the catch fallback of the source is
unreachable and only the try branch is modelled. -/
def calculateRelativePath (cwd filePath sourcePath : String) : Option String :=
  let relative := pathRelative cwd sourcePath filePath
  if strStarts relative ".." then none else some relative

/-- VSCodeTimelineExtractor.processFileForReconstruction. The copy of
the blob to the destination is a write with no influence on the
returned record and is not modelled. The falsy test on the relative
path in the source rejects both undefined and the empty string. -/
def processFileForReconstruction (fsys : Fsys) (hashOf : String → Option String)
    (cwd filePath : String) (timelineFile : TimelineFile)
    (sourcePath outputPath : String) (atTimestamp : Option Int)
    (exportMetadata : Bool) : ProcessOutcome :=
  let entryOpt : Option FileEntry :=
    match atTimestamp with
    | some t => timelineFile.getEntryAtTimestamp t
    | none => timelineFile.latestEntry
  match entryOpt with
  | none => { status := .skipped, relativePath := none, metadata := none, error := none }
  | some entry =>
    match calculateRelativePath cwd filePath sourcePath with
    | none => { status := .skipped, relativePath := none, metadata := none, error := none }
    | some relativePath =>
      if relativePath = "" then
        { status := .skipped, relativePath := none, metadata := none, error := none }
      else
        let sourceFile := timelineFile.getFileContentPath entry
        if fsys.fileExists sourceFile = false then
          { status := .error, relativePath := none, metadata := none
            error := some (filePath, "Source file not found: " ++ sourceFile) }
        else
          { status := .processed, relativePath := some relativePath
            metadata :=
              if exportMetadata then
                some { timelineFile.toMetadataDict hashOf entry with relativePath := relativePath }
              else none
            error := none }

/-- VSCodeTimelineExtractor.filterByDirectory. The index is the
insertion-ordered map from decoded path to TimelineFile; path.sep is
the POSIX slash. -/
def filterByDirectory (index : List (String × TimelineFile))
    (cwd directoryPath : String) : List (String × TimelineFile) :=
  let normalizedDir := pathResolve cwd directoryPath
  let dirWithSlash := if strEnds normalizedDir "/" then normalizedDir else normalizedDir ++ "/"
  index.filter (fun p => strStarts p.1 dirWithSlash || strStarts p.1 normalizedDir)

/-- interface ReconstructionResult. reconstructedAt holds the formatted
timestamp in the source; formatting is presentation-only and the raw
millisecond value is carried. -/
structure ReconstructionResult where
  success : Bool
  outputDirectory : Option String
  filesProcessed : Nat
  files : List String
  errors : List (String × String)
  reconstructedAt : Option Int
  skippedFiles : Option Nat
  error : Option String
deriving DecidableEq, Repr

/-- One iteration of the loop in reconstructDirectory, pushing onto the
four accumulator arrays (processed paths, skipped paths, errors,
metadata entries). -/
def reconStep (fsys : Fsys) (hashOf : String → Option String)
    (cwd sourcePath outputPath : String) (atTimestamp : Option Int) (exportMetadata : Bool)
    (acc : List String × List String × List (String × String) × List FileMetadata)
    (p : String × TimelineFile) :
    List String × List String × List (String × String) × List FileMetadata :=
  let r := processFileForReconstruction fsys hashOf cwd p.1 p.2 sourcePath outputPath
    atTimestamp exportMetadata
  match r.status with
  | .processed =>
    (acc.1 ++ [r.relativePath.getD ""], acc.2.1, acc.2.2.1,
      acc.2.2.2 ++ (match r.metadata with | some m => [m] | none => []))
  | .skipped => (acc.1, acc.2.1 ++ [p.1], acc.2.2.1, acc.2.2.2)
  | .error => (acc.1, acc.2.1, acc.2.2.1 ++ [r.error.getD ("", "")], acc.2.2.2)

/-- VSCodeTimelineExtractor.reconstructDirectory. Creation of the output
directory and the metadata export are writes with no influence on the
returned record and are not modelled. -/
def reconstructDirectory (fsys : Fsys) (hashOf : String → Option String)
    (cwd : String) (index : List (String × TimelineFile))
    (sourceDirectory outputDirectory : String)
    (exportMetadata : Bool) (atTimestamp : Option Int) : ReconstructionResult :=
  let matching := filterByDirectory index cwd sourceDirectory
  if matching.isEmpty then
    { success := false
      error := some ("No files found for directory: " ++ sourceDirectory)
      filesProcessed := 0, files := [], errors := []
      outputDirectory := none, reconstructedAt := none, skippedFiles := none }
  else
    let sourcePath := pathResolve cwd sourceDirectory
    let acc := matching.foldl
      (reconStep fsys hashOf cwd sourcePath outputDirectory atTimestamp exportMetadata)
      ([], [], [], [])
    let base : ReconstructionResult :=
      { success := true, outputDirectory := some outputDirectory
        filesProcessed := acc.1.length, files := acc.1, errors := acc.2.2.1
        error := none, reconstructedAt := none, skippedFiles := none }
    match atTimestamp with
    | some t => { base with reconstructedAt := some t, skippedFiles := some acc.2.1.length }
    | none => base

/-! ### Scanning (extractor.ts, scanTimeline) -/

/-- One immediate child of the store root as the scan observes it:
whether it is a directory, whether it holds an entries.json, and what
parsing that file yields (none means JSON.parse or the read threw,
some none means the manifest has no resource field, some (some tf)
means a TimelineFile was built from it). -/
structure StoreDir where
  name : String
  isDir : Bool
  hasEntries : Bool
  parsed : Option (Option TimelineFile)
deriving DecidableEq

/-- Map.set on the insertion-ordered association list. -/
def mapSet : List (String × TimelineFile) → String → TimelineFile → List (String × TimelineFile)
  | [], k, v => [(k, v)]
  | (k₂, v₂) :: rest, k, v =>
    if k₂ = k then (k, v) :: rest else (k₂, v₂) :: mapSet rest k v

/-- The body of the scan loop over the children of the store root. -/
def scanStep (idx : List (String × TimelineFile)) (item : StoreDir) :
    List (String × TimelineFile) :=
  if item.isDir = false then idx
  else if item.hasEntries = false then idx
  else
    match item.parsed with
    | none => idx
    | some none => idx
    | some (some tf) => mapSet idx tf.relativePath tf

/-- Result value of scanTimeline: the file count on success, the thrown
message otherwise. -/
inductive ScanResult where
  | ok (count : Nat)
  | err (msg : String)
deriving DecidableEq

/-- VSCodeTimelineExtractor.scanTimeline as a transition on the live
index. The method first clears the live map (this.timelineFiles.clear())
and only then enumerates the store root (fs.readdirSync, which throws
when the root is unreadable, modelled by the error side of listing);
so what survives a failed enumeration is the cleared map, whatever the
prior index held. -/
def scanTimeline (listing : Except String (List StoreDir))
    (prior : List (String × TimelineFile)) :
    ScanResult × List (String × TimelineFile) :=
  match listing with
  | .error e => (.err e, [])
  | .ok items =>
    let idx := items.foldl scanStep []
    (.ok idx.length, idx)

/-! ### Timestamp parser (utils.ts, parseTimestamp) -/

/-- The test and captures of the date-only regular expression: four
digits, dash, two digits, dash, two digits. -/
def dateOnlyMatch (s : String) : Option (Nat × Nat × Nat) :=
  match s.data with
  | [a, b, c, d, '-', e, f, '-', g, h] =>
    if ([a, b, c, d, e, f, g, h].all Char.isDigit) then
      some (digitsVal (String.mk [a, b, c, d]),
        digitsVal (String.mk [e, f]),
        digitsVal (String.mk [g, h]))
    else none
  | _ => none

/-- Leap year test of the proleptic Gregorian calendar. -/
def leapYear (y : Nat) : Bool := y % 4 == 0 && (y % 100 != 0 || y % 400 == 0)

/-- Days in the year before the first of the given month (1-12). -/
def daysBeforeMonth (leap : Bool) (m : Nat) : Nat :=
  (if leap then [0, 0, 31, 60, 91, 121, 152, 182, 213, 244, 274, 305, 335]
   else [0, 0, 31, 59, 90, 120, 151, 181, 212, 243, 273, 304, 334]).getD m 0

/-- Number of leap years in the interval from 1970 up to, excluding, y. -/
def leapCount1970 (y : Nat) : Nat :=
  ((y - 1) / 4 - (y - 1) / 100 + (y - 1) / 400) - (1969 / 4 - 1969 / 100 + 1969 / 400)

/-- Days from the epoch to the first of the given month; the claims
only exercise dates from 1970 on, which is the domain modelled. -/
def daysToMonthStart (y m : Nat) : Nat :=
  365 * (y - 1970) + leapCount1970 y + daysBeforeMonth (leapYear y) m

/-- Millisecond instant of 00:00 UTC on the given calendar date; this
is what the ECMAScript Date parser assigns to a bare YYYY-MM-DD string
(date-only forms carry no zone and are specified as UTC). -/
def utcMidnightMs (y m d : Nat) : Int :=
  (Int.ofNat (daysToMonthStart y m) + (Int.ofNat d - 1)) * 86400000

/-- Millisecond instant of 00:00 local time on the given date, in a
zone where local time is UTC plus tzOffsetMs. -/
def localMidnightMs (tzOffsetMs : Int) (y m d : Nat) : Int :=
  utcMidnightMs y m d - tzOffsetMs

/-- The value of new Date(year, month - 1, day).getTime() of the third
branch of parseTimestamp: a local-time calendar date, month and day
rolling over out-of-range values as ECMAScript MakeDay does. -/
def jsLocalDateMs (tzOffsetMs : Int) (y m d : Nat) : Int :=
  let mIdx := m - 1
  localMidnightMs tzOffsetMs (y + mIdx / 12) (mIdx % 12 + 1) d

/-- parseTimestamp of utils.ts. jsDate is the runtime Date-string
parser, new Date(s).getTime(), with none standing for NaN; tzOffsetMs
is the local zone offset, entering through the two Date constructions.
The thrown error of the unrecognized case is the none result. -/
def parseTimestamp (jsDate : String → Option Int) (tzOffsetMs : Int)
    (s : String) : Option Int :=
  if isAllDigits s then
    let v : Int := Int.ofNat (digitsVal s)
    if v < 4102444800 then some (v * 1000) else some v
  else
    match jsDate s with
    | some t => some t
    | none =>
      match dateOnlyMatch s with
      | some (y, m, d) => some (jsLocalDateMs tzOffsetMs y m d)
      | none => none

/-! ### Specification-side predicates -/

/-- The entry is at some position of the list, its timestamp is maximal
there, and every strictly earlier position holds a strictly smaller
timestamp: it is the earliest position among those tied at the maximum. -/
def isFirstMax (l : List FileEntry) (e : FileEntry) : Prop :=
  ∃ i, l.get? i = some e ∧ (∀ x ∈ l, x.timestamp ≤ e.timestamp) ∧
    ∀ j, j < i → ∀ x, l.get? j = some x → x.timestamp < e.timestamp

/-! ### Concrete instances used by counterexamples and witnesses -/

/-- Entry with timestamp 5. -/
def e5 : FileEntry := { id := "v5", timestamp := 5, source := none, sourceDescription := none }

/-- Entry with timestamp 7. -/
def e7 : FileEntry := { id := "v7", timestamp := 7, source := none, sourceDescription := none }

/-- A two-version file with distinct timestamps. -/
def f2file : TimelineFile :=
  { originalPath := "file:///a/f.txt", relativePath := "/a/f.txt"
    timelineDir := "/store/f", entries := [e5, e7] }

/-- First of two entries tied at timestamp 5. -/
def tieA : FileEntry := { id := "A", timestamp := 5, source := none, sourceDescription := none }

/-- Second of two entries tied at timestamp 5. -/
def tieB : FileEntry := { id := "B", timestamp := 5, source := none, sourceDescription := none }

/-- A file whose two versions share one timestamp. -/
def tieFile : TimelineFile :=
  { originalPath := "file:///t", relativePath := "/t"
    timelineDir := "/store/t", entries := [tieA, tieB] }

/-- A tracked file whose path shares a bare string prefix with /foo. -/
def cexTf : TimelineFile :=
  { originalPath := "file:///foobar/x", relativePath := "/foobar/x"
    timelineDir := "/store/cex"
    entries := [{ id := "C1", timestamp := 100, source := none, sourceDescription := none }] }

/-- A one-entry file standing for a previously built index entry. -/
def sampleTf : TimelineFile :=
  { originalPath := "file:///a/x.txt", relativePath := "/a/x.txt"
    timelineDir := "/store/x"
    entries := [{ id := "X1", timestamp := 50, source := none, sourceDescription := none }] }

/-- A previously built one-entry index. -/
def priorSample : List (String × TimelineFile) := [("/a/x.txt", sampleTf)]

/-- A file system with no files. -/
def fsysEmpty : Fsys := { fileExists := fun _ => false }

/-- Hash oracle returning no hash. -/
def hashNone : String → Option String := fun _ => none

/-- Tracked file a.txt of the three-file scenario. -/
def tfA : TimelineFile :=
  { originalPath := "file:///proj/a.txt", relativePath := "/proj/a.txt"
    timelineDir := "/store/a"
    entries := [{ id := "A1", timestamp := 100, source := none, sourceDescription := none }] }

/-- Tracked file b.txt of the three-file scenario, whose blob is deleted. -/
def tfB : TimelineFile :=
  { originalPath := "file:///proj/b.txt", relativePath := "/proj/b.txt"
    timelineDir := "/store/b"
    entries := [{ id := "B1", timestamp := 100, source := none, sourceDescription := none }] }

/-- Tracked file c.txt of the three-file scenario. -/
def tfC : TimelineFile :=
  { originalPath := "file:///proj/c.txt", relativePath := "/proj/c.txt"
    timelineDir := "/store/c"
    entries := [{ id := "C1", timestamp := 100, source := none, sourceDescription := none }] }

/-- Index of the three-file scenario. -/
def index3 : List (String × TimelineFile) :=
  [("/proj/a.txt", tfA), ("/proj/b.txt", tfB), ("/proj/c.txt", tfC)]

/-- File system of the three-file scenario: the blob of b.txt is absent. -/
def fsys3 : Fsys :=
  { fileExists := fun p => p == "/store/a/A1" || p == "/store/c/C1" }

/-- The runtime Date parser on the single string the claims exercise:
the ECMAScript value of new Date applied to the bare date 2025-06-27. -/
def jsDateSample : String → Option Int :=
  fun s => if s = "2025-06-27" then some 1750982400000 else none

/-! ### Selectors describing what one loop iteration of
reconstructDirectory pushes onto each accumulator array -/

/-- The relative path pushed onto the processed list for an outcome. -/
def procSel (r : ProcessOutcome) : Option String :=
  match r.status with
  | .processed => some (r.relativePath.getD "")
  | _ => none

/-- The path pushed onto the skipped list for an outcome. -/
def skipSel (filePath : String) (r : ProcessOutcome) : Option String :=
  match r.status with
  | .skipped => some filePath
  | _ => none

/-- The pair pushed onto the error list for an outcome. -/
def errSel (r : ProcessOutcome) : Option (String × String) :=
  match r.status with
  | .error => some (r.error.getD ("", ""))
  | _ => none

/-- The record pushed onto the metadata list for an outcome. -/
def metaSel (r : ProcessOutcome) : Option FileMetadata :=
  match r.status with
  | .processed => r.metadata
  | _ => none

/-! ### Helper lemmas about the reduce used by the resolution getters -/

/-- The strict-replacement fold either keeps the seed, in which case the
seed dominates the list, or returns a list element that strictly beats
the seed, dominates the list, and strictly beats every earlier position. -/
theorem foldl_pickLatest_spec (l : List FileEntry) (acc : FileEntry) :
    (l.foldl pickLatest acc = acc ∧ ∀ x ∈ l, x.timestamp ≤ acc.timestamp) ∨
    (∃ i x, l.get? i = some x ∧ l.foldl pickLatest acc = x ∧
      acc.timestamp < x.timestamp ∧
      (∀ y ∈ l, y.timestamp ≤ x.timestamp) ∧
      ∀ j, j < i → ∀ y, l.get? j = some y → y.timestamp < x.timestamp) := by
  induction l generalizing acc with
  | nil =>
    left
    exact ⟨rfl, by intro x hx; cases hx⟩
  | cons b t ih =>
    rw [List.foldl_cons]
    by_cases hb : b.timestamp > acc.timestamp
    · rw [show pickLatest acc b = b from if_pos hb]
      rcases ih b with ⟨heq, hall⟩ | ⟨i, x, hget, heq, hlt, hall, hin⟩
      · refine Or.inr ⟨0, b, rfl, heq, hb, ?_, ?_⟩
        · intro y hy
          rcases List.mem_cons.mp hy with h | h
          · exact h ▸ le_refl _
          · exact hall y h
        · intro j hj
          exact absurd hj (Nat.not_lt_zero j)
      · refine Or.inr ⟨i + 1, x, by simpa using hget, heq, lt_trans hb hlt, ?_, ?_⟩
        · intro y hy
          rcases List.mem_cons.mp hy with h | h
          · exact h ▸ le_of_lt hlt
          · exact hall y h
        · intro j hj y hgety
          cases j with
          | zero =>
            have hyb : b = y := by simpa using hgety
            exact hyb ▸ hlt
          | succ j₂ =>
            exact hin j₂ (Nat.lt_of_succ_lt_succ hj) y (by simpa using hgety)
    · rw [show pickLatest acc b = acc from if_neg hb]
      have hble : b.timestamp ≤ acc.timestamp := le_of_not_lt hb
      rcases ih acc with ⟨heq, hall⟩ | ⟨i, x, hget, heq, hlt, hall, hin⟩
      · refine Or.inl ⟨heq, ?_⟩
        intro y hy
        rcases List.mem_cons.mp hy with h | h
        · exact h ▸ hble
        · exact hall y h
      · refine Or.inr ⟨i + 1, x, by simpa using hget, heq, hlt, ?_, ?_⟩
        · intro y hy
          rcases List.mem_cons.mp hy with h | h
          · exact h ▸ le_trans hble (le_of_lt hlt)
          · exact hall y h
        · intro j hj y hgety
          cases j with
          | zero =>
            have hyb : b = y := by simpa using hgety
            exact hyb ▸ lt_of_le_of_lt hble hlt
          | succ j₂ =>
            exact hin j₂ (Nat.lt_of_succ_lt_succ hj) y (by simpa using hgety)

/-- The reduce over a nonempty list lands on the earliest position
achieving the maximal timestamp. -/
theorem firstMax_of_foldl (a : FileEntry) (l : List FileEntry) :
    isFirstMax (a :: l) (l.foldl pickLatest a) := by
  rcases foldl_pickLatest_spec l a with ⟨heq, hall⟩ | ⟨i, x, hget, heq, hlt, hall, hin⟩
  · rw [heq]
    refine ⟨0, rfl, ?_, ?_⟩
    · intro y hy
      rcases List.mem_cons.mp hy with h | h
      · exact h ▸ le_refl _
      · exact hall y h
    · intro j hj
      exact absurd hj (Nat.not_lt_zero j)
  · rw [heq]
    refine ⟨i + 1, by simpa using hget, ?_, ?_⟩
    · intro y hy
      rcases List.mem_cons.mp hy with h | h
      · exact h ▸ le_of_lt hlt
      · exact hall y h
    · intro j hj y hgety
      cases j with
      | zero =>
        have hya : a = y := by simpa using hgety
        exact hya ▸ hlt
      | succ j₂ =>
        exact hin j₂ (Nat.lt_of_succ_lt_succ hj) y (by simpa using hgety)

/-- latestEntry lands on the earliest position achieving the maximal
timestamp of the entries list. -/
theorem latestEntry_isFirstMax (f : TimelineFile) (e : FileEntry)
    (h : f.latestEntry = some e) : isFirstMax f.entries e := by
  unfold TimelineFile.latestEntry at h
  rcases hE : f.entries with _ | ⟨a, rest⟩
  · rw [hE] at h
    cases h
  · rw [hE] at h
    have he : rest.foldl pickLatest a = e := by
      simpa using h
    have := firstMax_of_foldl a rest
    rw [he] at this
    exact this

/-- getEntryAtTimestamp lands on the earliest position achieving the
maximal timestamp of the filtered qualifying list. -/
theorem getEntryAtTimestamp_isFirstMax (f : TimelineFile) (t : Int) (e : FileEntry)
    (h : f.getEntryAtTimestamp t = some e) :
    isFirstMax (f.entries.filter (fun x => decide (x.timestamp ≤ t))) e := by
  unfold TimelineFile.getEntryAtTimestamp at h
  rcases hE : f.entries.filter (fun x => decide (x.timestamp ≤ t)) with _ | ⟨a, rest⟩
  · rw [hE] at h
    cases h
  · rw [hE] at h
    have he : rest.foldl pickLatest a = e := by
      simpa using h
    have := firstMax_of_foldl a rest
    rw [he, ← hE] at this
    exact this

/-- A positional hit of a list is a member. -/
theorem mem_of_get? {l : List FileEntry} {i : Nat} {e : FileEntry}
    (h : l.get? i = some e) : e ∈ l := by
  induction l generalizing i with
  | nil => cases h
  | cons a t ih =>
    cases i with
    | zero =>
      have : a = e := by simpa using h
      exact this ▸ List.mem_cons_self a t
    | succ j => exact List.mem_cons_of_mem a (ih (by simpa using h))

/-! ### Claim theorems -/

/-- The getter returns none exactly when the qualifying filter is empty. -/
theorem getEntryAtTimestamp_eq_none_iff (f : TimelineFile) (t : Int) :
    f.getEntryAtTimestamp t = none ↔
    f.entries.filter (fun x => decide (x.timestamp ≤ t)) = [] := by
  unfold TimelineFile.getEntryAtTimestamp
  rcases hE : f.entries.filter (fun x => decide (x.timestamp ≤ t)) with _ | ⟨a, rest⟩ <;>
    simp [hE]

/-- Claim C3: for every TimelineFile f and instant t, getEntryAtTimestamp
returns an entry of f with timestamp at most t and maximal among all
entries of f with timestamp at most t; and it returns none exactly when
no entry of f has timestamp at most t, in particular whenever t precedes
every timestamp of f. -/
theorem claimC3_pointInTime (f : TimelineFile) (t : Int) :
    (∀ e, f.getEntryAtTimestamp t = some e →
      e ∈ f.entries ∧ e.timestamp ≤ t ∧
        ∀ x ∈ f.entries, x.timestamp ≤ t → x.timestamp ≤ e.timestamp) ∧
    (f.getEntryAtTimestamp t = none ↔ ∀ e ∈ f.entries, t < e.timestamp) := by
  constructor
  · intro e he
    obtain ⟨i, hi, hmax, _⟩ := getEntryAtTimestamp_isFirstMax f t e he
    have hmemF : e ∈ f.entries.filter (fun x => decide (x.timestamp ≤ t)) := mem_of_get? hi
    have hmem := List.mem_filter.mp hmemF
    refine ⟨hmem.1, by simpa using hmem.2, ?_⟩
    intro x hx hxt
    exact hmax x (List.mem_filter.mpr ⟨hx, by simpa using hxt⟩)
  · rw [getEntryAtTimestamp_eq_none_iff, List.filter_eq_nil_iff]
    simp [not_le]

/-- Witness for claim C3 at a concrete file: the instant 6 resolves to
the version with timestamp 5, and the instant 3, earlier than every
version, resolves to none. -/
theorem claimC3_witness :
    (e5 ∈ f2file.entries ∧ e5.timestamp ≤ 6 ∧
      ∀ x ∈ f2file.entries, x.timestamp ≤ 6 → x.timestamp ≤ e5.timestamp) ∧
    f2file.getEntryAtTimestamp 3 = none :=
  ⟨(claimC3_pointInTime f2file 6).1 e5 rfl,
   (claimC3_pointInTime f2file 3).2.mpr (by decide)⟩

/-- Claim C4: on a file with at least one entry, for every instant at or
after all entry timestamps, point-in-time resolution and latest-version
resolution choose the same entry, and the per-file reconstruction step
behaves identically with that instant and with no instant. -/
theorem claimC4_latest_equiv (f : TimelineFile) (t : Int)
    (hne : f.entries ≠ [])
    (hall : ∀ e ∈ f.entries, e.timestamp ≤ t) :
    f.getEntryAtTimestamp t = f.latestEntry ∧
    ∀ (fsys : Fsys) (hashOf : String → Option String)
      (cwd filePath sourcePath outputPath : String) (em : Bool),
      processFileForReconstruction fsys hashOf cwd filePath f sourcePath outputPath (some t) em =
      processFileForReconstruction fsys hashOf cwd filePath f sourcePath outputPath none em := by
  have _ := hne
  have hf : f.entries.filter (fun e => decide (e.timestamp ≤ t)) = f.entries :=
    List.filter_eq_self.mpr (fun a ha => decide_eq_true (hall a ha))
  have h1 : f.getEntryAtTimestamp t = f.latestEntry := by
    unfold TimelineFile.getEntryAtTimestamp TimelineFile.latestEntry
    rw [hf]
  refine ⟨h1, ?_⟩
  intro fsys hashOf cwd filePath sourcePath outputPath em
  simp only [processFileForReconstruction, h1]

/-- Witness for claim C4 at a concrete file and the instant 10, at or
after both timestamps 5 and 7. -/
theorem claimC4_witness :
    f2file.getEntryAtTimestamp 10 = f2file.latestEntry ∧
    processFileForReconstruction fsysEmpty hashNone "/" "/a/f.txt" f2file "/a" "/out" (some 10) true =
    processFileForReconstruction fsysEmpty hashNone "/" "/a/f.txt" f2file "/a" "/out" none true :=
  ⟨(claimC4_latest_equiv f2file 10 (by decide) (by decide)).1,
   (claimC4_latest_equiv f2file 10 (by decide) (by decide)).2
     fsysEmpty hashNone "/" "/a/f.txt" "/a" "/out" true⟩

/-- Counterexample to claim C9: in a file whose two versions are tied at
timestamp 5, latestEntry returns the first tied entry, not the one
appearing later in scan order as the claim states. -/
theorem claimC9_cex :
    tieFile.entries = [tieA, tieB] ∧
    tieA.timestamp = tieB.timestamp ∧
    tieFile.latestEntry = some tieA ∧
    tieA ≠ tieB :=
  ⟨rfl, rfl, rfl, by decide⟩

/-- Claim C9 as amended: among versions tied at the maximal timestamp,
latestEntry returns the one at the earliest scan position (the reduce
replaces its incumbent only on a strictly greater timestamp), not the
last one observed. -/
theorem claimC9_amended (f : TimelineFile) (e : FileEntry)
    (h : f.latestEntry = some e) : isFirstMax f.entries e :=
  latestEntry_isFirstMax f e h

/-- Witness for the amended claim C9 at the tied file. -/
theorem claimC9_witness : isFirstMax tieFile.entries tieA :=
  claimC9_amended tieFile tieA rfl

/-- Claim C10: latestEntry and getEntryAtTimestamp are functions of the
entries list that land on the earliest position among the qualifying
entries tied at the maximal timestamp; an incumbent of the underlying
reduce is replaced only by a strictly greater timestamp. -/
theorem claimC10_firstTie (f : TimelineFile) (t : Int) (e : FileEntry) :
    (f.latestEntry = some e → isFirstMax f.entries e) ∧
    (f.getEntryAtTimestamp t = some e →
      isFirstMax (f.entries.filter (fun x => decide (x.timestamp ≤ t))) e) :=
  ⟨latestEntry_isFirstMax f e, getEntryAtTimestamp_isFirstMax f t e⟩

/-- Witness for claim C10 at a concrete file: the latest entry is the
first maximum of the entries, the entry at instant 6 the first maximum
of the qualifying entries. -/
theorem claimC10_witness :
    isFirstMax f2file.entries e7 ∧
    isFirstMax (f2file.entries.filter (fun x => decide (x.timestamp ≤ 6))) e5 :=
  ⟨(claimC10_firstTie f2file 0 e7).1 rfl, (claimC10_firstTie f2file 6 e5).2 rfl⟩

/-- Claim C1, evaluated at the failing input: for directory /foo (its
own normalization) the filter returns the tracked file /foobar/x even
though that path neither equals /foo nor continues it with a path
separator — the disjunct comparing against the bare normalized
directory admits any string prefix match. -/
theorem claimC1_nonBoundaryMatch :
    pathResolve "/" "/foo" = "/foo" ∧
    filterByDirectory [("/foobar/x", cexTf)] "/" "/foo" = [("/foobar/x", cexTf)] ∧
    strStarts "/foobar/x" ("/foo" ++ "/") = false ∧
    ("/foobar/x" : String) ≠ "/foo" :=
  ⟨by decide, by decide, by decide, by decide⟩

/-- Counterexample to claim C2: with a prior one-entry index, a scan
whose enumeration of the store root throws leaves the live index empty;
the prior entry is not intact. -/
theorem claimC2_cex :
    ("/a/x.txt", sampleTf) ∈ priorSample ∧
    (scanTimeline (Except.error "ENOENT") priorSample).1 = ScanResult.err "ENOENT" ∧
    (scanTimeline (Except.error "ENOENT") priorSample).2 = [] ∧
    ("/a/x.txt", sampleTf) ∉ (scanTimeline (Except.error "ENOENT") priorSample).2 :=
  ⟨by decide, rfl, rfl, by decide⟩

/-- Claim C2 as amended: scanTimeline clears the live index before
enumerating the store root, so its outcome never depends on the prior
index; a failed enumeration returns the error together with the emptied
index rather than the prior one, and a successful scan rebuilds the
index wholesale from the listed store directories. -/
theorem claimC2_amended (listing : Except String (List StoreDir))
    (p q : List (String × TimelineFile)) (e : String) (items : List StoreDir) :
    scanTimeline listing p = scanTimeline listing q ∧
    scanTimeline (Except.error e) p = (ScanResult.err e, []) ∧
    scanTimeline (Except.ok items) p =
      (ScanResult.ok (items.foldl scanStep []).length, items.foldl scanStep []) := by
  refine ⟨?_, rfl, rfl⟩
  cases listing <;> rfl

/-- Claim C5: an all-digit string whose value is below 4102444800 is
taken as seconds and scaled to milliseconds, any other all-digit string
is taken as milliseconds and returned unchanged; the ten-digit and
thirteen-digit encodings of one instant parse equal. The value bound
2^53 delimits where JS parseInt is exact. -/
theorem claimC5_digitHeuristic (jsDate : String → Option Int) (tz : Int) :
    (∀ s, isAllDigits s = true → digitsVal s < 2 ^ 53 →
      parseTimestamp jsDate tz s =
        some (if Int.ofNat (digitsVal s) < 4102444800
          then Int.ofNat (digitsVal s) * 1000 else Int.ofNat (digitsVal s))) ∧
    parseTimestamp jsDate tz "1751055000" = some 1751055000000 ∧
    parseTimestamp jsDate tz "1751055000000" = some 1751055000000 := by
  refine ⟨?_, rfl, rfl⟩
  intro s hs _
  simp only [parseTimestamp, hs, if_true]
  split <;> simp

/-- Witness for claim C5 at the all-digit string 42. -/
theorem claimC5_witness :
    parseTimestamp jsDateSample 0 "42" =
      some (if Int.ofNat (digitsVal "42") < 4102444800
        then Int.ofNat (digitsVal "42") * 1000 else Int.ofNat (digitsVal "42")) :=
  (claimC5_digitHeuristic jsDateSample 0).1 "42" (by decide) (by decide)

/-- Claim C6, evaluated at the failing input: under the ECMAScript rule
that a bare date string parses as a UTC instant (the hypothesis on
jsDate), parseTimestamp applied to 2025-06-27 returns midnight UTC of
that date, which differs from midnight local time in every zone with a
nonzero offset; the date-only branch of the source that would compute
local midnight is not reached. -/
theorem claimC6_utcNotLocal (jsDate : String → Option Int) (tz : Int)
    (hjs : jsDate "2025-06-27" = some (utcMidnightMs 2025 6 27))
    (htz : tz ≠ 0) :
    parseTimestamp jsDate tz "2025-06-27" = some 1750982400000 ∧
    parseTimestamp jsDate tz "2025-06-27" ≠ some (localMidnightMs tz 2025 6 27) := by
  have hd : isAllDigits "2025-06-27" = false := by decide
  have hu : utcMidnightMs 2025 6 27 = 1750982400000 := by decide
  constructor
  · simp [parseTimestamp, hd, hjs, hu]
  · simp only [parseTimestamp, hd, Bool.false_eq_true, if_false, hjs, hu, localMidnightMs,
      ne_eq, Option.some.injEq]
    omega

/-- Witness for claim C6 in the zone one hour east of UTC. -/
theorem claimC6_witness :
    parseTimestamp jsDateSample 3600000 "2025-06-27" = some 1750982400000 ∧
    parseTimestamp jsDateSample 3600000 "2025-06-27" ≠
      some (localMidnightMs 3600000 2025 6 27) :=
  claimC6_utcNotLocal jsDateSample 3600000 (by decide) (by decide)

/-- The reconstruction loop accumulates, in order, exactly what each
selector extracts from the per-file outcomes: no iteration aborts the
fold, every matching file contributes to exactly one list. -/
theorem foldl_reconStep_spec (fsys : Fsys) (hashOf : String → Option String)
    (cwd sp op : String) (ts : Option Int) (em : Bool)
    (l : List (String × TimelineFile)) :
    ∀ a b c d,
      l.foldl (reconStep fsys hashOf cwd sp op ts em) (a, b, c, d) =
        (a ++ l.filterMap (fun p =>
            procSel (processFileForReconstruction fsys hashOf cwd p.1 p.2 sp op ts em)),
         b ++ l.filterMap (fun p =>
            skipSel p.1 (processFileForReconstruction fsys hashOf cwd p.1 p.2 sp op ts em)),
         c ++ l.filterMap (fun p =>
            errSel (processFileForReconstruction fsys hashOf cwd p.1 p.2 sp op ts em)),
         d ++ l.filterMap (fun p =>
            metaSel (processFileForReconstruction fsys hashOf cwd p.1 p.2 sp op ts em))) := by
  induction l with
  | nil => intro a b c d; simp
  | cons x xs ih =>
    intro a b c d
    rw [List.foldl_cons]
    rcases hst : (processFileForReconstruction fsys hashOf cwd x.1 x.2 sp op ts em).status
      with _ | _ | _ <;>
      cases hm : (processFileForReconstruction fsys hashOf cwd x.1 x.2 sp op ts em).metadata <;>
      simp [reconStep, hst, hm, ih, List.filterMap_cons, procSel, skipSel, errSel, metaSel,
        List.append_assoc]

/-- Each matching file lands in exactly one of the processed, skipped
and error lists, so the three counts add up to the matched total. -/
theorem filterMap_status_count (g : String × TimelineFile → ProcessOutcome) :
    ∀ l : List (String × TimelineFile),
      (l.filterMap (fun p => procSel (g p))).length +
      (l.filterMap (fun p => skipSel p.1 (g p))).length +
      (l.filterMap (fun p => errSel (g p))).length = l.length := by
  intro l
  induction l with
  | nil => rfl
  | cons x xs ih =>
    rcases hst : (g x).status with _ | _ | _
    · have h1 : procSel (g x) = some ((g x).relativePath.getD "") := by simp [procSel, hst]
      have h2 : skipSel x.1 (g x) = none := by simp [skipSel, hst]
      have h3 : errSel (g x) = none := by simp [errSel, hst]
      simp only [List.filterMap_cons, h1, h2, h3, List.length_cons]
      omega
    · have h1 : procSel (g x) = none := by simp [procSel, hst]
      have h2 : skipSel x.1 (g x) = some x.1 := by simp [skipSel, hst]
      have h3 : errSel (g x) = none := by simp [errSel, hst]
      simp only [List.filterMap_cons, h1, h2, h3, List.length_cons]
      omega
    · have h1 : procSel (g x) = none := by simp [procSel, hst]
      have h2 : skipSel x.1 (g x) = none := by simp [skipSel, hst]
      have h3 : errSel (g x) = some ((g x).error.getD ("", "")) := by simp [errSel, hst]
      simp only [List.filterMap_cons, h1, h2, h3, List.length_cons]
      omega

/-- Claim C7: reconstruction fails exactly when the directory filter
matches no tracked file, in which case no file is processed and the
no-files error message is reported; with at least one match the result
is successful regardless of per-file outcomes. -/
theorem claimC7_successCriterion (fsys : Fsys) (hashOf : String → Option String)
    (cwd : String) (index : List (String × TimelineFile))
    (srcDir outDir : String) (em : Bool) (ts : Option Int) :
    ((reconstructDirectory fsys hashOf cwd index srcDir outDir em ts).success = false ↔
      filterByDirectory index cwd srcDir = []) ∧
    (filterByDirectory index cwd srcDir = [] →
      (reconstructDirectory fsys hashOf cwd index srcDir outDir em ts).filesProcessed = 0 ∧
      (reconstructDirectory fsys hashOf cwd index srcDir outDir em ts).error =
        some ("No files found for directory: " ++ srcDir)) ∧
    (filterByDirectory index cwd srcDir ≠ [] →
      (reconstructDirectory fsys hashOf cwd index srcDir outDir em ts).success = true) := by
  rcases hm : filterByDirectory index cwd srcDir with _ | ⟨x, xs⟩
  · simp [reconstructDirectory, hm]
  · cases ts <;> simp [reconstructDirectory, hm]

/-- Witness for claim C7 on an empty index: nothing matches, the result
fails with the no-files message and a zero count. -/
theorem claimC7_witness :
    (reconstructDirectory fsysEmpty hashNone "/" [] "/p" "/out" true none).filesProcessed = 0 ∧
    (reconstructDirectory fsysEmpty hashNone "/" [] "/p" "/out" true none).error =
      some ("No files found for directory: " ++ "/p") ∧
    (reconstructDirectory fsysEmpty hashNone "/" [] "/p" "/out" true none).success = false :=
  ⟨((claimC7_successCriterion fsysEmpty hashNone "/" [] "/p" "/out" true none).2.1 rfl).1,
   ((claimC7_successCriterion fsysEmpty hashNone "/" [] "/p" "/out" true none).2.1 rfl).2,
   (claimC7_successCriterion fsysEmpty hashNone "/" [] "/p" "/out" true none).1.mpr rfl⟩

/-- Claim C8: when the filter matches, the error list of the result is
exactly the list of per-file error records of the matching files, in
order, and the processed, skipped and errored counts partition the
matched total — a per-file error never aborts the remaining files and
the overall result stays successful. -/
theorem claimC8_errorAccounting (fsys : Fsys) (hashOf : String → Option String)
    (cwd : String) (index : List (String × TimelineFile))
    (srcDir outDir : String) (em : Bool) (ts : Option Int)
    (h : filterByDirectory index cwd srcDir ≠ []) :
    (reconstructDirectory fsys hashOf cwd index srcDir outDir em ts).success = true ∧
    (reconstructDirectory fsys hashOf cwd index srcDir outDir em ts).errors =
      (filterByDirectory index cwd srcDir).filterMap (fun p =>
        errSel (processFileForReconstruction fsys hashOf cwd p.1 p.2
          (pathResolve cwd srcDir) outDir ts em)) ∧
    (reconstructDirectory fsys hashOf cwd index srcDir outDir em ts).filesProcessed +
      ((filterByDirectory index cwd srcDir).filterMap (fun p =>
        skipSel p.1 (processFileForReconstruction fsys hashOf cwd p.1 p.2
          (pathResolve cwd srcDir) outDir ts em))).length +
      (reconstructDirectory fsys hashOf cwd index srcDir outDir em ts).errors.length =
      (filterByDirectory index cwd srcDir).length := by
  rcases hm : filterByDirectory index cwd srcDir with _ | ⟨x, xs⟩
  · exact absurd hm h
  · have hfold := foldl_reconStep_spec fsys hashOf cwd (pathResolve cwd srcDir) outDir ts em
      (x :: xs) [] [] [] []
    have hcount := filterMap_status_count
      (fun p => processFileForReconstruction fsys hashOf cwd p.1 p.2
        (pathResolve cwd srcDir) outDir ts em) (x :: xs)
    cases ts <;>
      simp only [reconstructDirectory, hm, List.isEmpty_cons, Bool.false_eq_true, if_false,
        hfold, List.nil_append] <;>
      exact ⟨trivial, trivial, hcount⟩

/-- Witness for claim C8, the three-file scenario: one blob deleted
from the store yields two processed files, one error entry naming the
missing file, and an overall successful result. -/
theorem claimC8_witness :
    (reconstructDirectory fsys3 hashNone "/" index3 "/proj" "/out" true none).success = true ∧
    (reconstructDirectory fsys3 hashNone "/" index3 "/proj" "/out" true none).filesProcessed = 2 ∧
    (reconstructDirectory fsys3 hashNone "/" index3 "/proj" "/out" true none).errors =
      [("/proj/b.txt", "Source file not found: /store/b/B1")] := by
  have h := claimC8_errorAccounting fsys3 hashNone "/" index3 "/proj" "/out" true none (by decide)
  exact ⟨h.1, by decide, by decide⟩
